import Mathlib

/-!
Verification model of `src/components/AnalyticsOverview.js`.

The component is a dashboard panel that tracks a session-uptime timer in
browser local storage, appends an in-memory uptime history, and counts
remote "scenario" records for the current day.  This file is a shallow
embedding of that component: local storage is a map from string keys to
optional string values, wall-clock time (`Date.now()`) is an explicit
integer parameter (epoch milliseconds), and the JavaScript primitives the
component relies on (`parseInt`, number-to-string coercion, `padStart`,
`toISOString`'s date part, `setHours`) are modelled as executable Lean
functions.  Time zones are modelled as a fixed offset in milliseconds
east of UTC (DST transitions are outside the model).
-/

namespace AnalyticsOverview

/-! ## JavaScript primitive models -/

/-- The decimal digit character for `d < 10` (models JS number formatting
digit by digit). -/
def digitChar (d : Nat) : Char := Char.ofNat (48 + d)

/-- Most-significant-first decimal digits of `n`; the first argument is
structural fuel (any fuel `≥ n` yields the digits of `n`). -/
def natDigitsF : Nat → Nat → List Char
  | 0, _ => []
  | fuel + 1, n => if n = 0 then [] else natDigitsF fuel (n / 10) ++ [digitChar (n % 10)]

/-- Decimal digit list of a natural number, `0` rendered as `"0"`. -/
def natToStrDigits (n : Nat) : List Char := if n = 0 then ['0'] else natDigitsF n n

/-- Models the JavaScript number-to-string coercion for integers (as
performed by `localStorage.setItem` and string interpolation). -/
def intToStr (i : Int) : String :=
  if i < 0 then ⟨'-' :: natToStrDigits i.natAbs⟩ else ⟨natToStrDigits i.toNat⟩

/-- Whitespace test used by `parseInt`'s leading-whitespace skip. -/
def isWS (c : Char) : Bool := c == ' ' || c == '\t' || c == '\n' || c == '\r'

/-- Whether the list starts with a decimal digit. -/
def headIsDigit : List Char → Bool
  | [] => false
  | c :: _ => c.isDigit

/-- Accumulates the longest leading run of decimal digits, as JS
`parseInt` does (trailing non-digit characters are ignored). -/
def parseDigitsAcc : Nat → List Char → Nat
  | acc, [] => acc
  | acc, c :: cs => if c.isDigit then parseDigitsAcc (acc * 10 + (c.toNat - 48)) cs else acc

/-- Core of JS `parseInt(s, 10)` after whitespace skipping: optional
sign, then at least one digit, else `NaN` (modelled as `none`). -/
def parseIntCore : List Char → Option Int
  | [] => none
  | c :: cs =>
    if c = '-' then
      if headIsDigit cs then some (-(parseDigitsAcc 0 cs : Int)) else none
    else if c = '+' then
      if headIsDigit cs then some ((parseDigitsAcc 0 cs : Int)) else none
    else if c.isDigit then some ((parseDigitsAcc 0 (c :: cs) : Int)) else none

/-- JS `parseInt(s, 10)`: skip leading whitespace, optional sign, longest
digit run; `none` models `NaN`. -/
def parseIntStr (s : String) : Option Int := parseIntCore (s.data.dropWhile isWS)

/-- JS `parseInt(localStorage.getItem(k), 10)`: `getItem` returns `null`
for a missing key and `parseInt(null, 10)` is `NaN` (`none`). -/
def parseIntJS : Option String → Option Int
  | none => none
  | some s => parseIntStr s

/-- JS truthiness of a parsed integer: `NaN` and `0` are falsy. -/
def truthyInt : Option Int → Bool
  | none => false
  | some v => v != 0

/-- Models `parseInt(x, 10) || 0`: `NaN` (and `0`) collapse to `0`. -/
def parseOr0 (x : Option String) : Int := (parseIntJS x).getD 0

/-- JS `String.prototype.padStart(n, c)`. -/
def padStart (s : String) (n : Nat) (c : Char) : String :=
  ⟨List.replicate (n - s.data.length) c ++ s.data⟩

/-! ## Local storage model -/

/-- Browser `localStorage`: a map from string keys to string values
(`none` models an absent key / a `null` from `getItem`). -/
def LocalStorage : Type := String → Option String

/-- `localStorage.getItem`. -/
def getItem (ls : LocalStorage) (k : String) : Option String := ls k

/-- `localStorage.setItem`. -/
def setItem (ls : LocalStorage) (k v : String) : LocalStorage :=
  fun q => if q = k then some v else ls q

/-- `localStorage.removeItem`. -/
def removeItem (ls : LocalStorage) (k : String) : LocalStorage :=
  fun q => if q = k then none else ls q

/-- A storage with no keys set. -/
def emptyStore : LocalStorage := fun _ => none

/-! ## Calendar model -/

/-- Milliseconds in a civil day. -/
def msPerDay : Int := 86400000

/-- Civil `(year, month, day)` from a count of days since 1970-01-01
(proleptic Gregorian, Howard Hinnant's `civil_from_days` algorithm, as
implemented by JS `Date`). -/
def civilFromDays (z : Int) : Int × Int × Int :=
  let z' := z + 719468
  let era := z' / 146097
  let doe := z' - era * 146097
  let yoe := (doe - doe / 1460 + doe / 36524 - doe / 146096) / 365
  let y := yoe + era * 400
  let doy := doe - (365 * yoe + yoe / 4 - yoe / 100)
  let mp := (5 * doy + 2) / 153
  let d := doy - (153 * mp + 2) / 5 + 1
  let m := mp + (if mp < 10 then 3 else -9)
  (y + (if m ≤ 2 then 1 else 0), m, d)

/-- Day index (days since epoch, floored) of an epoch-millisecond
instant; divisor is positive, so Euclidean division is floor division. -/
def msToDay (t : Int) : Int := t / msPerDay

/-- `YYYY-MM-DD` rendering of a civil date, as produced by the date part
of `Date.prototype.toISOString`. -/
def isoDateOf (c : Int × Int × Int) : String :=
  padStart (intToStr c.1) 4 '0' ++ "-" ++ padStart (intToStr c.2.1) 2 '0'
    ++ "-" ++ padStart (intToStr c.2.2) 2 '0'

/-- Line 79: `new Date().toISOString().split('T')[0]` — the UTC calendar
date of the instant `t`, rendered `YYYY-MM-DD`. -/
def todayKeyOf (t : Int) : String := isoDateOf (civilFromDays (msToDay t))

/-- The storage key template `` `dailyUptime_${todayKey}` ``. -/
def dailyKey (k : String) : String := "dailyUptime_" ++ k

/-- Lines 153–154: `startOfDay.setHours(0, 0, 0, 0)` — the epoch
millisecond of local midnight of the local day containing `t`, for a
fixed offset `tzMs` (milliseconds east of UTC). -/
def startOfDayMs (tzMs t : Int) : Int := t - (t + tzMs) % msPerDay

/-- Lines 155–156: `endOfDay.setHours(23, 59, 59, 999)`. -/
def endOfDayMs (tzMs t : Int) : Int := startOfDayMs tzMs t + 86399999

/-- The local-day index of an instant: days since epoch of the local
calendar day containing `t`. -/
def localDayIdx (tzMs t : Int) : Int := (t + tzMs) / msPerDay

/-! ## Component state and operations -/

/-- One element of the in-memory `uptimeHistory`
(`{ time: ..., uptime: ... }`, line 136). -/
structure HistEntry where
  time : String
  uptime : Int
deriving DecidableEq

/-- The component's React state (lines 73–77). -/
structure CState where
  totalSessions : Int
  totalScenarios : Nat
  dailyUptime : Int
  uptimeHistory : List HistEntry
  sessionActive : Bool
deriving DecidableEq

/-- Initial state from the `useState` initialisers. -/
def initState : CState :=
  { totalSessions := 0, totalScenarios := 0, dailyUptime := 0
    uptimeHistory := [], sessionActive := false }

/-- Lines 81–86: `formatUptime`.  `Math.floor` on a positive divisor is
Euclidean division; JS `%` on the (here nonnegative) minute count is
truncated remainder `Int.tmod`. -/
def formatUptime (ms : Int) : String :=
  let mins := ms / 60000
  let h := padStart (intToStr (mins / 60)) 2 '0'
  let m := padStart (intToStr (Int.tmod mins 60)) 2 '0'
  h ++ "h " ++ m ++ "m"

/-- Lines 88–95: `startSession`.  Guarded by the in-memory
`sessionActive` flag; writes the start marker and the active flag. -/
def startSession (now : Int) (st : CState) (ls : LocalStorage) : CState × LocalStorage :=
  if st.sessionActive then (st, ls)
  else
    ({ st with sessionActive := true },
     setItem (setItem ls "sessionStart" (intToStr now)) "sessionActive" "true")

/-- Lines 97–109: `endSession`.  `k` is the `todayKey` captured by the
closure (line 79 of the render that created it).  If the start marker
parses to a truthy integer, adds `now − start` to the persisted daily
total; unconditionally clears the marker and the active flag. -/
def endSession (k : String) (now : Int) (st : CState) (ls : LocalStorage) :
    CState × LocalStorage :=
  let startTs := parseIntJS (getItem ls "sessionStart")
  let p :=
    if truthyInt startTs then
      let elapsed := now - startTs.getD 0
      let prev := parseOr0 (getItem ls (dailyKey k))
      let total := prev + elapsed
      ({ st with dailyUptime := total }, setItem ls (dailyKey k) (intToStr total))
    else (st, ls)
  ({ p.1 with sessionActive := false },
   setItem (removeItem p.2 "sessionStart") "sessionActive" "false")

/-- Lines 126–141: the body of the 60-second interval callback.  `k` and
`capturedActive` are the `todayKey` and `sessionActive` values captured
by the closure when the interval effect ran (the effect re-runs only
when `sessionActive` changes, so `k` stays fixed across ticks of one
interval).  `timeStr` models `new Date().toLocaleTimeString()`. -/
def tick (k : String) (capturedActive : Bool) (now : Int) (timeStr : String)
    (st : CState) (ls : LocalStorage) : CState × LocalStorage :=
  if capturedActive then
    let startTs := parseIntJS (getItem ls "sessionStart")
    if truthyInt startTs then
      let elapsed := now - startTs.getD 0
      let prev := parseOr0 (getItem ls (dailyKey k))
      let total := prev + elapsed
      ({ st with dailyUptime := total,
                 uptimeHistory := st.uptimeHistory ++ [⟨timeStr, total / 60000⟩] },
       setItem ls (dailyKey k) (intToStr total))
    else (st, ls)
  else (st, ls)

/-- Consecutive ticks of one installed interval: the captured `todayKey`
`k` and `capturedActive` are fixed for the whole run, because the
interval callback is a single closure (lines 125–144). -/
def runTicks (k : String) (capturedActive : Bool) (ticks : List (Int × String))
    (p : CState × LocalStorage) : CState × LocalStorage :=
  ticks.foldl (fun q nt => tick k capturedActive nt.1 nt.2 q.1 q.2) p

/-- Lines 111–117: the mount effect body.  Reads the persisted active
flag and today's total, then starts a session if not active.  `k` is the
`todayKey` of the mounting render. -/
def mount (k : String) (now : Int) (st : CState) (ls : LocalStorage) :
    CState × LocalStorage :=
  let active := decide (getItem ls "sessionActive" = some "true")
  let st1 : CState :=
    { st with sessionActive := active, dailyUptime := parseOr0 (getItem ls (dailyKey k)) }
  if active then (st1, ls) else startSession now st1 ls

/-- Lines 151–165: `fetchScenarios`, with the remote store modelled as a
finite list of records carrying an epoch-millisecond `date` field.  The
query keeps records with `date >= startOfDay` and `date <= endOfDay` and
the displayed count is `snapshot.size`. -/
def fetchScenarios (tzMs t : Int) (records : List Int) (st : CState) : CState :=
  { st with totalScenarios :=
      (records.filter
        (fun d => decide (startOfDayMs tzMs t ≤ d) && decide (d ≤ endOfDayMs tzMs t))).length }

/-- The operations of the component.  `unmountOp` is the effect cleanup
(lines 119–122), which calls `endSession` (and the `beforeunload`
handler is the same call); each carries its `Date.now()` instant. -/
inductive Op where
  | startOp (now : Int)
  | endOp (now : Int)
  | tickOp (capturedActive : Bool) (now : Int) (timeStr : String)
  | mountOp (now : Int)
  | unmountOp (now : Int)
  | fetchOp (tzMs : Int) (now : Int) (records : List Int)

/-- The wall-clock instant at which an operation runs. -/
def Op.time : Op → Int
  | .startOp n => n
  | .endOp n => n
  | .tickOp _ n _ => n
  | .mountOp n => n
  | .unmountOp n => n
  | .fetchOp _ n _ => n

/-- Whether an operation performs its storage write through the
`endSession` routine (the explicit end, the unmount cleanup and the
`beforeunload` handler all invoke `endSession`). -/
def Op.viaEnd : Op → Prop
  | .endOp _ => True
  | .unmountOp _ => True
  | _ => False

/-- Whether an operation is a periodic tick. -/
def Op.isTick : Op → Prop
  | .tickOp _ _ _ => True
  | _ => False

/-- One step of the component:  dispatch of the operations above.  `k`
is the `todayKey` captured by the closure performing the operation. -/
def step (k : String) (op : Op) (st : CState) (ls : LocalStorage) :
    CState × LocalStorage :=
  match op with
  | .startOp n => startSession n st ls
  | .endOp n => endSession k n st ls
  | .tickOp a n s => tick k a n s st ls
  | .mountOp n => mount k n st ls
  | .unmountOp n => endSession k n st ls
  | .fetchOp z n rs => (fetchScenarios z n rs st, ls)

/-- The persisted daily total under key `q`, as the component reads it
(`parseInt(...) || 0`). -/
def dailyVal (ls : LocalStorage) (q : String) : Int := parseOr0 (getItem ls q)

/-- The calendar day named by the uptime storage key at instant `t`:
the UTC civil date, as `todayKey` derives it via `toISOString`. -/
def keyDay (t : Int) : Int × Int × Int := civilFromDays (msToDay t)

/-- The local civil date of instant `t` for offset `tzMs`. -/
def localDay (tzMs t : Int) : Int × Int × Int := civilFromDays (localDayIdx tzMs t)

/-- The calendar day the scenario query window refers to: the local
civil date of the window's start instant (`setHours(0,0,0,0)`). -/
def windowDay (tzMs t : Int) : Int × Int × Int :=
  civilFromDays (localDayIdx tzMs (startOfDayMs tzMs t))

/-- A component state whose session is active, as after a completed
`startSession` state update. -/
def activeState : CState := { initState with sessionActive := true }

/-- Concrete storage: a session started at epoch millisecond 1000 and
marked active. -/
def lsStart1000 : LocalStorage :=
  setItem (setItem emptyStore "sessionStart" (intToStr 1000)) "sessionActive" "true"

/-- Concrete storage: a session started at 86300000 ms
(1970-01-01 23:58:20 UTC), shortly before the UTC midnight. -/
def lsCrossMidnight : LocalStorage :=
  setItem (setItem emptyStore "sessionStart" (intToStr 86300000)) "sessionActive" "true"

/-! ## Helper lemmas: storage -/

theorem getItem_setItem_same (ls : LocalStorage) (k v : String) :
    getItem (setItem ls k v) k = some v := by
  simp [getItem, setItem]

theorem getItem_setItem_ne (ls : LocalStorage) (k v q : String) (h : q ≠ k) :
    getItem (setItem ls k v) q = getItem ls q := by
  simp [getItem, setItem, h]

theorem getItem_removeItem_same (ls : LocalStorage) (k : String) :
    getItem (removeItem ls k) k = none := by
  simp [getItem, removeItem]

theorem getItem_removeItem_ne (ls : LocalStorage) (k q : String) (h : q ≠ k) :
    getItem (removeItem ls k) q = getItem ls q := by
  simp [getItem, removeItem, h]

theorem dailyKey_ne_sessionStart (k : String) : dailyKey k ≠ "sessionStart" := by
  intro h
  have h5 : (some 'd' : Option Char) = some 's' := congrArg (fun s => s.data.head?) h
  exact absurd (Option.some.inj h5) (by decide)

theorem dailyKey_ne_sessionActive (k : String) : dailyKey k ≠ "sessionActive" := by
  intro h
  have h5 : (some 'd' : Option Char) = some 's' := congrArg (fun s => s.data.head?) h
  exact absurd (Option.some.inj h5) (by decide)

/-! ## Helper lemmas: decimal round trip -/

theorem digitChar_spec :
    ∀ d, d < 10 → (digitChar d).isDigit = true ∧ (digitChar d).toNat - 48 = d := by
  decide

theorem isDigit_ne_dash {c : Char} (h : c.isDigit = true) : ¬(c = '-') := by
  intro he; subst he; exact absurd h (by decide)

theorem isDigit_ne_plus {c : Char} (h : c.isDigit = true) : ¬(c = '+') := by
  intro he; subst he; exact absurd h (by decide)

theorem isDigit_not_ws {c : Char} (h : c.isDigit = true) : isWS c = false := by
  rcases hw : isWS c
  · rfl
  · exfalso
    simp only [isWS, Bool.or_eq_true, beq_iff_eq] at hw
    rcases hw with ((h1 | h1) | h1) | h1 <;> subst h1 <;> exact absurd h (by decide)

theorem parseDigitsAcc_append (xs : List Char) :
    ∀ ys acc, (∀ c ∈ xs, c.isDigit = true) →
      parseDigitsAcc acc (xs ++ ys) = parseDigitsAcc (parseDigitsAcc acc xs) ys := by
  induction xs with
  | nil => intro ys acc _; rfl
  | cons c cs ih =>
    intro ys acc h
    have hc : c.isDigit = true := h c (by simp)
    simp only [List.cons_append, parseDigitsAcc, hc, if_true]
    exact ih ys _ (fun d hd => h d (by simp [hd]))

theorem natDigitsF_all_digits (fuel : Nat) :
    ∀ n, ∀ c ∈ natDigitsF fuel n, c.isDigit = true := by
  induction fuel with
  | zero => intro n c hc; simp [natDigitsF] at hc
  | succ f ih =>
    intro n c hc
    by_cases hn : n = 0
    · simp [natDigitsF, hn] at hc
    · simp only [natDigitsF, hn, if_false, List.mem_append, List.mem_singleton] at hc
      rcases hc with hc | hc
      · exact ih _ c hc
      · subst hc; exact (digitChar_spec _ (Nat.mod_lt _ (by norm_num))).1

theorem natDigitsF_ne_nil (fuel n : Nat) (hn : n ≠ 0) (hf : n ≤ fuel) :
    natDigitsF fuel n ≠ [] := by
  rcases fuel with _ | f
  · omega
  · simp [natDigitsF, hn]

theorem parseDigitsAcc_natDigitsF (fuel : Nat) :
    ∀ n acc, n ≤ fuel →
      parseDigitsAcc acc (natDigitsF fuel n) =
        acc * 10 ^ (natDigitsF fuel n).length + n := by
  induction fuel with
  | zero =>
    intro n acc h
    have : n = 0 := by omega
    subst this; simp [natDigitsF, parseDigitsAcc]
  | succ f ih =>
    intro n acc h
    by_cases hn : n = 0
    · subst hn; simp [natDigitsF, parseDigitsAcc]
    · have hdiv : n / 10 ≤ f := by omega
      have hm : n % 10 < 10 := by omega
      have hd := digitChar_spec (n % 10) hm
      simp only [natDigitsF, hn, if_false]
      rw [parseDigitsAcc_append _ _ _ (natDigitsF_all_digits f (n / 10))]
      rw [ih (n / 10) acc hdiv]
      simp only [parseDigitsAcc, hd.1, if_true, hd.2]
      rw [List.length_append, List.length_singleton, pow_succ]
      have := Nat.div_add_mod n 10
      ring_nf
      omega

theorem parseDigitsAcc_natToStrDigits (n : Nat) :
    parseDigitsAcc 0 (natToStrDigits n) = n := by
  by_cases hn : n = 0
  · subst hn; decide
  · simp only [natToStrDigits, hn, if_false]
    rw [parseDigitsAcc_natDigitsF n n 0 le_rfl]
    simp

theorem natToStrDigits_ne_nil (n : Nat) : natToStrDigits n ≠ [] := by
  by_cases hn : n = 0
  · subst hn; decide
  · simp only [natToStrDigits, hn, if_false]
    exact natDigitsF_ne_nil n n hn le_rfl

theorem natToStrDigits_all_digits (n : Nat) :
    ∀ c ∈ natToStrDigits n, c.isDigit = true := by
  by_cases hn : n = 0
  · subst hn; decide
  · simp only [natToStrDigits, hn, if_false]
    exact natDigitsF_all_digits n n

theorem parseIntCore_digits (l : List Char) (hne : l ≠ [])
    (hdig : ∀ c ∈ l, c.isDigit = true) :
    parseIntCore (l.dropWhile isWS) = some ((parseDigitsAcc 0 l : Nat) : Int) := by
  rcases l with _ | ⟨c, cs⟩
  · exact absurd rfl hne
  · have hc : c.isDigit = true := hdig c (by simp)
    rw [List.dropWhile_cons_of_neg (by simp [isDigit_not_ws hc])]
    simp only [parseIntCore, isDigit_ne_dash hc, if_false, isDigit_ne_plus hc, hc, if_true]

theorem parseIntStr_intToStr (i : Int) : parseIntStr (intToStr i) = some i := by
  by_cases hi : i < 0
  · have hne : i.natAbs ≠ 0 := by omega
    simp only [intToStr, hi, if_true, parseIntStr]
    rw [List.dropWhile_cons_of_neg (by decide)]
    have hhead : headIsDigit (natToStrDigits i.natAbs) = true := by
      rcases hl : natToStrDigits i.natAbs with _ | ⟨c, cs⟩
      · exact absurd hl (natToStrDigits_ne_nil _)
      · have : c.isDigit = true := natToStrDigits_all_digits _ c (by rw [hl]; simp)
        simp [headIsDigit, this]
    simp only [parseIntCore, if_true, hhead]
    rw [parseDigitsAcc_natToStrDigits]
    have : -((i.natAbs : Nat) : Int) = i := by omega
    rw [this]
  · simp only [intToStr, hi, if_false, parseIntStr]
    rw [parseIntCore_digits _ (natToStrDigits_ne_nil _) (natToStrDigits_all_digits _)]
    rw [parseDigitsAcc_natToStrDigits]
    have : ((i.toNat : Nat) : Int) = i := by omega
    rw [this]

theorem parseIntJS_intToStr (i : Int) : parseIntJS (some (intToStr i)) = some i :=
  parseIntStr_intToStr i

theorem parseOr0_intToStr (i : Int) : parseOr0 (some (intToStr i)) = i := by
  simp [parseOr0, parseIntJS_intToStr]

theorem intToStr_natCast (m : Nat) : intToStr (m : Int) = String.mk (natToStrDigits m) := by
  have h : ¬((m : Int) < 0) := by omega
  simp only [intToStr, h, if_false]
  congr 1

theorem padStart_two_le (s : String) : 2 ≤ (padStart s 2 '0').length := by
  show 2 ≤ (List.replicate (2 - s.data.length) '0' ++ s.data).length
  rw [List.length_append, List.length_replicate]
  omega

/-! ## Claim C2 -/

/-- Claim C2: for all `ms ≥ 0`, `formatUptime ms` is the string
`"HHh MMm"` where `HH` and `MM` are the decimal renderings of naturals
`H` and `M` zero-padded to at least two digits, `M < 60`, and
`H·60 + M = floor(ms / 60000)`; in particular
`formatUptime (125·60000) = "02h 05m"`. -/
theorem formatUptime_spec (ms : Int) (h : 0 ≤ ms) :
    ∃ H M : Nat,
      M < 60 ∧
      (H : Int) * 60 + (M : Int) = ms / 60000 ∧
      formatUptime ms =
        padStart (String.mk (natToStrDigits H)) 2 '0' ++ "h "
          ++ padStart (String.mk (natToStrDigits M)) 2 '0' ++ "m" ∧
      2 ≤ (padStart (String.mk (natToStrDigits H)) 2 '0').length ∧
      2 ≤ (padStart (String.mk (natToStrDigits M)) 2 '0').length ∧
      formatUptime (125 * 60000) = "02h 05m" := by
  lift ms to Nat using h with n
  refine ⟨n / 60000 / 60, n / 60000 % 60, by omega, ?_, ?_,
    padStart_two_le _, padStart_two_le _, by decide⟩
  · show (((n / 60000 / 60 : Nat) : Int)) * 60 + (((n / 60000 % 60 : Nat) : Int))
        = ((n / 60000 : Nat) : Int)
    push_cast
    omega
  · have h3 : formatUptime (n : Int) =
        padStart (intToStr (((n / 60000 / 60 : Nat) : Int))) 2 '0' ++ "h "
          ++ padStart (intToStr (((n / 60000 % 60 : Nat) : Int))) 2 '0' ++ "m" := rfl
    rw [h3, intToStr_natCast, intToStr_natCast]

/-- Witness for C2 at `ms = 125·60000`. -/
theorem formatUptime_spec_witness :
    ∃ H M : Nat,
      M < 60 ∧
      (H : Int) * 60 + (M : Int) = (125 * 60000 : Int) / 60000 ∧
      formatUptime (125 * 60000) =
        padStart (String.mk (natToStrDigits H)) 2 '0' ++ "h "
          ++ padStart (String.mk (natToStrDigits M)) 2 '0' ++ "m" ∧
      2 ≤ (padStart (String.mk (natToStrDigits H)) 2 '0').length ∧
      2 ≤ (padStart (String.mk (natToStrDigits M)) 2 '0').length ∧
      formatUptime (125 * 60000) = "02h 05m" :=
  formatUptime_spec (125 * 60000) (by norm_num)

/-! ## Claim C4 -/

/-- Claim C4: calling `startSession` twice in a row without an
intervening `endSession` performs exactly one persisted write of the
start marker: after the first call the marker holds the first call's
timestamp, and the second call — made while the session is active —
changes neither the persisted storage nor the in-memory state. -/
theorem startSession_reentrant (t1 t2 : Int) (st0 : CState) (ls0 : LocalStorage)
    (h : st0.sessionActive = false) :
    startSession t2 (startSession t1 st0 ls0).1 (startSession t1 st0 ls0).2
        = startSession t1 st0 ls0 ∧
    getItem (startSession t1 st0 ls0).2 "sessionStart" = some (intToStr t1) := by
  constructor
  · simp [startSession, h]
  · simp only [startSession, h, Bool.false_eq_true, if_false]
    rw [getItem_setItem_ne _ _ _ _ (by decide), getItem_setItem_same]

/-- Witness for C4 on the initial state and an empty storage. -/
theorem startSession_reentrant_witness :
    startSession 2 (startSession 1 initState emptyStore).1 (startSession 1 initState emptyStore).2
        = startSession 1 initState emptyStore ∧
    getItem (startSession 1 initState emptyStore).2 "sessionStart" = some (intToStr 1) :=
  startSession_reentrant 1 2 initState emptyStore rfl

/-! ## Claim C3 -/

/-- Claim C3: when the persisted start marker is absent or does not
parse to a truthy integer, `endSession` leaves the persisted daily
total unchanged while still setting the active flag to `false` (both in
memory and in storage) and removing the start marker, and a periodic
tick changes nothing at all (no write to the daily total, no history
entry).  Both operations are total functions, so no error is raised. -/
theorem endSession_tick_no_marker (k : String) (now : Int) (a : Bool) (ts : String)
    (st : CState) (ls : LocalStorage)
    (h : truthyInt (parseIntJS (getItem ls "sessionStart")) = false) :
    getItem (endSession k now st ls).2 (dailyKey k) = getItem ls (dailyKey k) ∧
    (endSession k now st ls).1.sessionActive = false ∧
    getItem (endSession k now st ls).2 "sessionStart" = none ∧
    getItem (endSession k now st ls).2 "sessionActive" = some "false" ∧
    tick k a now ts st ls = (st, ls) := by
  refine ⟨?_, ?_, ?_, ?_, ?_⟩
  · simp only [endSession, h, Bool.false_eq_true, if_false]
    rw [getItem_setItem_ne _ _ _ _ (dailyKey_ne_sessionActive k),
      getItem_removeItem_ne _ _ _ (dailyKey_ne_sessionStart k)]
  · simp [endSession, h]
  · simp only [endSession, h, Bool.false_eq_true, if_false]
    rw [getItem_setItem_ne _ _ _ _ (by decide), getItem_removeItem_same]
  · simp only [endSession, h, Bool.false_eq_true, if_false]
    rw [getItem_setItem_same]
  · cases a <;> simp [tick, h]

/-- Witness for C3: empty storage (no start marker at all). -/
theorem endSession_tick_no_marker_witness :
    getItem (endSession "2025-10-11" 5 initState emptyStore).2 (dailyKey "2025-10-11")
        = getItem emptyStore (dailyKey "2025-10-11") ∧
    (endSession "2025-10-11" 5 initState emptyStore).1.sessionActive = false ∧
    getItem (endSession "2025-10-11" 5 initState emptyStore).2 "sessionStart" = none ∧
    getItem (endSession "2025-10-11" 5 initState emptyStore).2 "sessionActive" = some "false" ∧
    tick "2025-10-11" true 5 "12:00:00" initState emptyStore = (initState, emptyStore) :=
  endSession_tick_no_marker "2025-10-11" 5 true "12:00:00" initState emptyStore rfl

/-! ## Claim C9 -/

/-- Claim C9: the in-memory uptime history is append-only: every
operation of the component either leaves it untouched or (only a tick)
appends exactly one entry at the end; no existing entry is ever
modified, reordered or removed. -/
theorem uptimeHistory_append_only (k : String) (op : Op) (st : CState) (ls : LocalStorage) :
    (step k op st ls).1.uptimeHistory = st.uptimeHistory ∨
    ∃ e, (step k op st ls).1.uptimeHistory = st.uptimeHistory ++ [e] := by
  cases op with
  | startOp n =>
    simp only [step, startSession]
    split_ifs <;> exact Or.inl rfl
  | endOp n =>
    simp only [step, endSession]
    split_ifs <;> exact Or.inl rfl
  | tickOp a n s =>
    simp only [step, tick]
    split_ifs
    · exact Or.inr ⟨_, rfl⟩
    · exact Or.inl rfl
    · exact Or.inl rfl
  | mountOp n =>
    simp only [step, mount, startSession]
    split_ifs <;> exact Or.inl rfl
  | unmountOp n =>
    simp only [step, endSession]
    split_ifs <;> exact Or.inl rfl
  | fetchOp z n rs =>
    exact Or.inl rfl

/-! ## Claim C7 -/

theorem mem_window_iff (tzMs t d : Int) :
    (startOfDayMs tzMs t ≤ d ∧ d ≤ endOfDayMs tzMs t)
      ↔ localDayIdx tzMs d = localDayIdx tzMs t := by
  simp only [endOfDayMs, startOfDayMs, localDayIdx, msPerDay]
  omega

/-- Claim C7: the scenario fetch sets the displayed count to exactly
the number of records whose date lies within the current local day
(the window `[setHours(0,0,0,0), setHours(23,59,59,999)]` covers
precisely the instants of the local calendar day of `t`): a day with
zero matching records yields 0, a day with K matching records yields K,
and records outside the window are never counted. -/
theorem fetchScenarios_count (tzMs t : Int) (records : List Int) (st : CState) :
    (fetchScenarios tzMs t records st).totalScenarios
      = (records.filter (fun d => decide (localDayIdx tzMs d = localDayIdx tzMs t))).length := by
  unfold fetchScenarios
  show (records.filter _).length = _
  congr 1
  apply List.filter_congr
  intro d _
  rw [← Bool.decide_and]
  exact decide_eq_decide.mpr (mem_window_iff tzMs t d)

/-! ## Claim C10 -/

/-- Claim C10: the uptime key is derived from the UTC calendar date
(`toISOString`) while the scenario window is built from the local
calendar day (`setHours` on a local date); whenever the local date
differs from the UTC date, the two refer to different calendar days. -/
theorem uptimeKey_vs_scenarioWindow (tzMs t : Int)
    (h : localDay tzMs t ≠ keyDay t) :
    windowDay tzMs t ≠ keyDay t ∧ todayKeyOf t = isoDateOf (keyDay t) ∧
    windowDay tzMs t = localDay tzMs t := by
  have harith : localDayIdx tzMs (startOfDayMs tzMs t) = localDayIdx tzMs t := by
    simp only [startOfDayMs, localDayIdx, msPerDay]
    omega
  have hw : windowDay tzMs t = localDay tzMs t := by
    unfold windowDay localDay
    rw [harith]
  exact ⟨hw ▸ h, rfl, hw⟩

/-- Witness for C10: UTC+1 at 1970-01-01 23:53:20 UTC, where the local
date is already 1970-01-02. -/
theorem uptimeKey_vs_scenarioWindow_witness :
    windowDay 3600000 86000000 ≠ keyDay 86000000 ∧
    todayKeyOf 86000000 = isoDateOf (keyDay 86000000) ∧
    windowDay 3600000 86000000 = localDay 3600000 86000000 :=
  uptimeKey_vs_scenarioWindow 3600000 86000000 (by decide)

/-! ## Claim C6 -/

/-- Claim C6: a mount that finds no active session immediately followed
by unmount (no ticks in between) performs one start-marker write (the
mount time) and one end finalization, and the net change of the
persisted daily total is exactly the wall-clock time elapsed between
the start write and the end. -/
theorem mount_unmount_net (k : String) (t0 t1 : Int) (st0 : CState) (ls0 : LocalStorage)
    (hactive : getItem ls0 "sessionActive" ≠ some "true") (ht0 : 0 < t0) :
    getItem (mount k t0 st0 ls0).2 "sessionStart" = some (intToStr t0) ∧
    dailyVal (endSession k t1 (mount k t0 st0 ls0).1 (mount k t0 st0 ls0).2).2 (dailyKey k)
      = dailyVal ls0 (dailyKey k) + (t1 - t0) ∧
    getItem (endSession k t1 (mount k t0 st0 ls0).1 (mount k t0 st0 ls0).2).2
        "sessionStart" = none ∧
    (endSession k t1 (mount k t0 st0 ls0).1 (mount k t0 st0 ls0).2).1.sessionActive
      = false := by
  have hdec : decide (getItem ls0 "sessionActive" = some "true") = false :=
    decide_eq_false hactive
  have hm : mount k t0 st0 ls0
      = ({ st0 with dailyUptime := parseOr0 (getItem ls0 (dailyKey k)), sessionActive := true },
         setItem (setItem ls0 "sessionStart" (intToStr t0)) "sessionActive" "true") := by
    simp [mount, hdec, startSession]
  rw [hm]
  have hget : getItem (setItem (setItem ls0 "sessionStart" (intToStr t0))
      "sessionActive" "true") "sessionStart" = some (intToStr t0) := by
    rw [getItem_setItem_ne _ _ _ _ (by decide), getItem_setItem_same]
  have hparse : parseIntJS (getItem (setItem (setItem ls0 "sessionStart" (intToStr t0))
      "sessionActive" "true") "sessionStart") = some t0 := by
    rw [hget]; exact parseIntJS_intToStr t0
  have htr : truthyInt (parseIntJS (getItem (setItem (setItem ls0 "sessionStart"
      (intToStr t0)) "sessionActive" "true") "sessionStart")) = true := by
    rw [hparse]; show (t0 != 0) = true; rw [bne_iff_ne]; omega
  have htr2 : truthyInt (some t0) = true := by
    show (t0 != 0) = true
    rw [bne_iff_ne]
    omega
  have e1 : getItem (setItem (setItem ls0 "sessionStart" (intToStr t0))
      "sessionActive" "true") (dailyKey k) = getItem ls0 (dailyKey k) := by
    rw [getItem_setItem_ne _ _ _ _ (dailyKey_ne_sessionActive k),
      getItem_setItem_ne _ _ _ _ (dailyKey_ne_sessionStart k)]
  refine ⟨hget, ?_, ?_, ?_⟩
  · simp only [endSession, hparse, htr2, eq_self_iff_true, if_true, Option.getD_some, e1]
    unfold dailyVal
    rw [getItem_setItem_ne _ _ _ _ (dailyKey_ne_sessionActive k),
      getItem_removeItem_ne _ _ _ (dailyKey_ne_sessionStart k),
      getItem_setItem_same, parseOr0_intToStr]
  · simp only [endSession, hparse, htr2, eq_self_iff_true, if_true]
    rw [getItem_setItem_ne _ _ _ _ (by decide), getItem_removeItem_same]
  · simp [endSession]

/-- Witness for C6: mount at `t0 = 1000` into an empty storage,
unmount at `t1 = 3000`. -/
theorem mount_unmount_net_witness :
    getItem (mount "2025-10-11" 1000 initState emptyStore).2 "sessionStart"
        = some (intToStr 1000) ∧
    dailyVal (endSession "2025-10-11" 3000 (mount "2025-10-11" 1000 initState emptyStore).1
        (mount "2025-10-11" 1000 initState emptyStore).2).2 (dailyKey "2025-10-11")
      = dailyVal emptyStore (dailyKey "2025-10-11") + (3000 - 1000) ∧
    getItem (endSession "2025-10-11" 3000 (mount "2025-10-11" 1000 initState emptyStore).1
        (mount "2025-10-11" 1000 initState emptyStore).2).2 "sessionStart" = none ∧
    (endSession "2025-10-11" 3000 (mount "2025-10-11" 1000 initState emptyStore).1
        (mount "2025-10-11" 1000 initState emptyStore).2).1.sessionActive = false :=
  mount_unmount_net "2025-10-11" 1000 3000 initState emptyStore (by decide) (by decide)

/-! ## Helper lemmas: effect of the operations on the daily key -/

theorem truthyInt_some_iff (x : Option Int) :
    truthyInt x = true ↔ ∃ s, x = some s ∧ s ≠ 0 := by
  cases x with
  | none => simp [truthyInt]
  | some v => simp [truthyInt, bne_iff_ne]

theorem dailyVal_startSession (now : Int) (st : CState) (ls : LocalStorage) (k : String) :
    dailyVal (startSession now st ls).2 (dailyKey k) = dailyVal ls (dailyKey k) := by
  cases hsa : st.sessionActive with
  | true => simp [startSession, hsa]
  | false =>
    simp only [startSession, hsa, Bool.false_eq_true, if_false]
    unfold dailyVal
    rw [getItem_setItem_ne _ _ _ _ (dailyKey_ne_sessionActive k),
      getItem_setItem_ne _ _ _ _ (dailyKey_ne_sessionStart k)]

theorem dailyVal_mount (k : String) (now : Int) (st : CState) (ls : LocalStorage) :
    dailyVal (mount k now st ls).2 (dailyKey k) = dailyVal ls (dailyKey k) := by
  simp only [mount]
  split_ifs
  · rfl
  · exact dailyVal_startSession now _ ls k

theorem tick_noop (k : String) (a : Bool) (now : Int) (ts : String) (st : CState)
    (ls : LocalStorage)
    (h : a = false ∨ truthyInt (parseIntJS (getItem ls "sessionStart")) = false) :
    tick k a now ts st ls = (st, ls) := by
  rcases h with h | h
  · subst h; simp [tick]
  · cases a <;> simp [tick, h]

theorem tick_store_write (k : String) (now : Int) (ts : String) (st : CState)
    (ls : LocalStorage) (s : Int)
    (hp : parseIntJS (getItem ls "sessionStart") = some s) (hs : s ≠ 0) :
    (tick k true now ts st ls).2
      = setItem ls (dailyKey k) (intToStr (dailyVal ls (dailyKey k) + (now - s))) := by
  have ht2 : truthyInt (some s) = true := by
    show (s != 0) = true
    rw [bne_iff_ne]
    exact hs
  simp only [tick, hp, ht2, eq_self_iff_true, if_true, Option.getD_some]
  rfl

theorem dailyVal_tick_write (k : String) (now : Int) (ts : String) (st : CState)
    (ls : LocalStorage) (s : Int)
    (hp : parseIntJS (getItem ls "sessionStart") = some s) (hs : s ≠ 0) :
    dailyVal (tick k true now ts st ls).2 (dailyKey k)
      = dailyVal ls (dailyKey k) + (now - s) := by
  rw [tick_store_write k now ts st ls s hp hs]
  unfold dailyVal
  rw [getItem_setItem_same, parseOr0_intToStr]

theorem endSession_store_some (k : String) (now : Int) (st : CState) (ls : LocalStorage)
    (s : Int) (hp : parseIntJS (getItem ls "sessionStart") = some s) (hs : s ≠ 0) :
    (endSession k now st ls).2
      = setItem (removeItem (setItem ls (dailyKey k)
          (intToStr (dailyVal ls (dailyKey k) + (now - s)))) "sessionStart")
          "sessionActive" "false" := by
  have ht2 : truthyInt (some s) = true := by
    show (s != 0) = true
    rw [bne_iff_ne]
    exact hs
  simp only [endSession, hp, ht2, eq_self_iff_true, if_true, Option.getD_some]
  rfl

theorem dailyVal_endSession_some (k : String) (now : Int) (st : CState)
    (ls : LocalStorage) (s : Int)
    (hp : parseIntJS (getItem ls "sessionStart") = some s) (hs : s ≠ 0) :
    dailyVal (endSession k now st ls).2 (dailyKey k)
      = dailyVal ls (dailyKey k) + (now - s) := by
  rw [endSession_store_some k now st ls s hp hs]
  unfold dailyVal
  rw [getItem_setItem_ne _ _ _ _ (dailyKey_ne_sessionActive k),
    getItem_removeItem_ne _ _ _ (dailyKey_ne_sessionStart k),
    getItem_setItem_same, parseOr0_intToStr]

theorem dailyVal_endSession_nottruthy (k : String) (now : Int) (st : CState)
    (ls : LocalStorage)
    (ht : truthyInt (parseIntJS (getItem ls "sessionStart")) = false) :
    dailyVal (endSession k now st ls).2 (dailyKey k) = dailyVal ls (dailyKey k) := by
  simp only [endSession, ht, Bool.false_eq_true, if_false]
  unfold dailyVal
  rw [getItem_setItem_ne _ _ _ _ (dailyKey_ne_sessionActive k),
    getItem_removeItem_ne _ _ _ (dailyKey_ne_sessionStart k)]

/-! ## Claim C5 -/

/-- Claim C5: for every operation of the component (session start,
session end, periodic tick, mount, unmount — the latter ends the
session — and the scenario fetch), assuming the current wall-clock time
is not earlier than a recorded start marker, the persisted value under
the current date key never decreases; it strictly increases only
through the `endSession` routine or a periodic tick, and only while a
truthy start marker is recorded. -/
theorem dailyTotal_monotone (k : String) (op : Op) (st : CState) (ls : LocalStorage)
    (h : (parseIntJS (getItem ls "sessionStart")).getD op.time ≤ op.time) :
    dailyVal ls (dailyKey k) ≤ dailyVal (step k op st ls).2 (dailyKey k) ∧
    (dailyVal ls (dailyKey k) < dailyVal (step k op st ls).2 (dailyKey k) →
      (op.viaEnd ∨ op.isTick) ∧
      truthyInt (parseIntJS (getItem ls "sessionStart")) = true) := by
  cases op with
  | startOp n =>
    simp only [step]
    rw [dailyVal_startSession]
    exact ⟨le_refl _, fun hlt => absurd hlt (lt_irrefl _)⟩
  | mountOp n =>
    simp only [step]
    rw [dailyVal_mount]
    exact ⟨le_refl _, fun hlt => absurd hlt (lt_irrefl _)⟩
  | fetchOp z n rs =>
    exact ⟨le_refl _, fun hlt => absurd hlt (lt_irrefl _)⟩
  | endOp n =>
    simp only [step, Op.time] at h ⊢
    cases hcase : truthyInt (parseIntJS (getItem ls "sessionStart")) with
    | false =>
      rw [dailyVal_endSession_nottruthy k n st ls hcase]
      exact ⟨le_refl _, fun hlt => absurd hlt (lt_irrefl _)⟩
    | true =>
      obtain ⟨s, hp, hs⟩ := (truthyInt_some_iff _).mp hcase
      rw [dailyVal_endSession_some k n st ls s hp hs]
      have hsn : s ≤ n := by rw [hp] at h; simpa using h
      exact ⟨by omega, fun _ => ⟨Or.inl trivial, rfl⟩⟩
  | unmountOp n =>
    simp only [step, Op.time] at h ⊢
    cases hcase : truthyInt (parseIntJS (getItem ls "sessionStart")) with
    | false =>
      rw [dailyVal_endSession_nottruthy k n st ls hcase]
      exact ⟨le_refl _, fun hlt => absurd hlt (lt_irrefl _)⟩
    | true =>
      obtain ⟨s, hp, hs⟩ := (truthyInt_some_iff _).mp hcase
      rw [dailyVal_endSession_some k n st ls s hp hs]
      have hsn : s ≤ n := by rw [hp] at h; simpa using h
      exact ⟨by omega, fun _ => ⟨Or.inl trivial, rfl⟩⟩
  | tickOp a n ts =>
    simp only [step, Op.time] at h ⊢
    cases a with
    | false =>
      rw [tick_noop k false n ts st ls (Or.inl rfl)]
      exact ⟨le_refl _, fun hlt => absurd hlt (lt_irrefl _)⟩
    | true =>
      cases hcase : truthyInt (parseIntJS (getItem ls "sessionStart")) with
      | false =>
        rw [tick_noop k true n ts st ls (Or.inr hcase)]
        exact ⟨le_refl _, fun hlt => absurd hlt (lt_irrefl _)⟩
      | true =>
        obtain ⟨s, hp, hs⟩ := (truthyInt_some_iff _).mp hcase
        rw [dailyVal_tick_write k n ts st ls s hp hs]
        have hsn : s ≤ n := by rw [hp] at h; simpa using h
        exact ⟨by omega, fun _ => ⟨Or.inr trivial, rfl⟩⟩

/-- Witness for C5: an `endSession` at time 5000 with a session started
at time 1000. -/
theorem dailyTotal_monotone_witness :
    dailyVal lsStart1000 (dailyKey "1970-01-01")
        ≤ dailyVal (step "1970-01-01" (Op.endOp 5000) initState lsStart1000).2
          (dailyKey "1970-01-01") ∧
    (dailyVal lsStart1000 (dailyKey "1970-01-01")
        < dailyVal (step "1970-01-01" (Op.endOp 5000) initState lsStart1000).2
          (dailyKey "1970-01-01") →
      ((Op.endOp 5000).viaEnd ∨ (Op.endOp 5000).isTick) ∧
      truthyInt (parseIntJS (getItem lsStart1000 "sessionStart")) = true) :=
  dailyTotal_monotone "1970-01-01" (Op.endOp 5000) initState lsStart1000 (by decide)

/-! ## Claim C8 -/

/-- Claim C8 counterexample: a session starts at 86300000 ms
(1970-01-01 23:58:20 UTC) and stays active across UTC midnight with no
remount; the interval closure captured `todayKey = "1970-01-01"` when
it was installed, so the tick at 86500000 ms (1970-01-02 00:01:40 UTC)
writes under `dailyUptime_1970-01-01` — while `dailyUptime_1970-01-02`,
the key of the calendar date at the moment of the write, is not
written at all, contradicting the claimed midnight key rotation. -/
theorem tick_midnight_stale_key :
    todayKeyOf 86300000 = "1970-01-01" ∧
    todayKeyOf 86500000 = "1970-01-02" ∧
    getItem (tick (todayKeyOf 86300000) true 86500000 "01:01:40" activeState
        lsCrossMidnight).2 (dailyKey (todayKeyOf 86500000)) = none ∧
    getItem (tick (todayKeyOf 86300000) true 86500000 "01:01:40" activeState
        lsCrossMidnight).2 (dailyKey (todayKeyOf 86300000))
      = some (intToStr 200000) := by
  decide

/-- Claim C8 amended: every tick write is stored under
`dailyUptime_<k>` where `k` is the `todayKey` captured when the tick
interval's closure was created (the UTC date of that render), not the
calendar date at the moment of the write; the captured key receives the
accumulated value and no other key — in particular not the current
date's key when it differs — is written. -/
theorem tick_writes_captured_key (k : String) (now : Int) (ts : String) (st : CState)
    (ls : LocalStorage) (s : Int)
    (hp : parseIntJS (getItem ls "sessionStart") = some s) (hs : s ≠ 0)
    (q : String) (hq : q ≠ dailyKey k) :
    getItem (tick k true now ts st ls).2 q = getItem ls q ∧
    getItem (tick k true now ts st ls).2 (dailyKey k)
      = some (intToStr (dailyVal ls (dailyKey k) + (now - s))) := by
  rw [tick_store_write k now ts st ls s hp hs]
  exact ⟨getItem_setItem_ne _ _ _ _ hq, getItem_setItem_same _ _ _⟩

/-- Witness for the amended C8 on the cross-midnight scenario. -/
theorem tick_writes_captured_key_witness :
    getItem (tick "1970-01-01" true 86500000 "01:01:40" activeState lsCrossMidnight).2
        (dailyKey "1970-01-02") = getItem lsCrossMidnight (dailyKey "1970-01-02") ∧
    getItem (tick "1970-01-01" true 86500000 "01:01:40" activeState lsCrossMidnight).2
        (dailyKey "1970-01-01")
      = some (intToStr (dailyVal lsCrossMidnight (dailyKey "1970-01-01")
          + (86500000 - 86300000))) :=
  tick_writes_captured_key "1970-01-01" 86500000 "01:01:40" activeState lsCrossMidnight
    86300000 (by decide) (by decide) (dailyKey "1970-01-02") (by decide)

/-! ## Claim C1 -/

/-- Claim C1 evaluated at a failing input: a session starts at epoch
ms 1000 with an empty daily total; two consecutive 60-second ticks fire
at 61000 and 121000.  Each tick adds the full elapsed time since the
still-unmoved start marker to the already-updated persisted total, so
after the two ticks the total is 60000 + 120000 = 180000 ms — not the
2 × 60000 = 120000 ms increase the claim states.  (The history part of
the claim does hold here: exactly one entry per tick, with
`minutes = floor(current total / 60000)`, i.e. 1 and then 3.) -/
theorem tick_run_double_counts :
    dailyVal (runTicks "1970-01-01" true [(61000, "00:01:01"), (121000, "00:02:01")]
        (activeState, lsStart1000)).2 (dailyKey "1970-01-01") = 180000 ∧
    (runTicks "1970-01-01" true [(61000, "00:01:01"), (121000, "00:02:01")]
        (activeState, lsStart1000)).1.uptimeHistory
      = [⟨"00:01:01", 1⟩, ⟨"00:02:01", 3⟩] ∧
    (180000 : Int) ≠ 2 * 60000 := by
  decide

end AnalyticsOverview
